import Mathlib

/-!
Verification of the virtualization engine (`useVirtual`): measurement store,
window calculator, scroll navigator, sticky resolver and incremental loader,
shallowly embedded from the source. JS numbers are modelled as `Int`;
optional / possibly-undefined values as `Option`; DOM refs (the outer
container's scroll position, the inner element's published styles) as fields
of an explicit engine state.  Loops are embedded as fuel-indexed recursions
whose fuel strictly exceeds the number of iterations the source loop can make.
-/

namespace RCV

/-- Source: `DEFAULT_ITEM_SIZE = 50`. -/
def DEFAULT_ITEM_SIZE : Int := 50

/-- Source: the `itemSize` option, a constant number or a function of the
index and the container cross-size possibly yielding no value. -/
inductive ItemSize where
  | const : Int → ItemSize
  | fn : (Nat → Int → Option Int) → ItemSize

/-- Source: `getItemSize(idx)`: the fixed size, or the size function applied
to the index and current outer width, falling back to the default. -/
def getItemSize (sz : ItemSize) (width : Int) (idx : Nat) : Int :=
  match sz with
  | .const s => s
  | .fn f => (f idx width).getD DEFAULT_ITEM_SIZE

/-- Source: the `Measure` record `{ idx, start, end, size }`. -/
structure Measure where
  idx : Nat
  start : Int
  end_ : Int
  size : Int
deriving Repr, DecidableEq

/-- Source: `getMeasure(idx, size)`: `start = msData[idx - 1]?.end ?? 0`
(index `-1` is out of range, hence `0` when `idx = 0`). -/
def getMeasure (msData : List Measure) (idx : Nat) (size : Int) : Measure :=
  let start := if idx = 0 then 0 else ((msData.get? (idx - 1)).map (·.end_)).getD 0
  { idx := idx, start := start, end_ := start + size, size := size }

/-- The loop body of `measureItems`: entry `i` is appended after entries
`0 .. i-1`, reading its predecessor's `end` from the part already built. -/
def buildMeasures (sizeAt : Nat → Int) : Nat → List Measure
  | 0 => []
  | n + 1 =>
    let prev := buildMeasures sizeAt n
    prev ++ [getMeasure prev n (sizeAt n)]

/-- Source: the size chosen for index `i` inside `measureItems`:
`useCache && msData[i] ? msData[i].size : getItemSize(i)` (after the array
has been resized to `itemCount`, position `i < itemCount` still holds the
old entry when one existed). -/
def cachedSize (useCache : Bool) (old : List Measure) (getSize : Nat → Int) (i : Nat) : Int :=
  if useCache then
    match old.get? i with
    | some m => m.size
    | none => getSize i
  else getSize i

/-- Source: `measureItems(useCache)`: resize to `itemCount` and rebuild every
entry by cumulative sum in index order. -/
def measureItems (getSize : Nat → Int) (useCache : Bool) (old : List Measure)
    (itemCount : Nat) : List Measure :=
  buildMeasures (cachedSize useCache old getSize) itemCount

/-- Modelled from the spec: `findNearestBinarySearch` lives in the `utils`
module which is not part of the sources; the spec describes it as binary
search over the monotonic `start` sequence locating the visible start.  Loop
body: `mid = ((low + high) / 2) | 0`; descend left when `input < val`, right
when `input > val`, return `mid` on an exact hit, and `low > 0 ? low - 1 : 0`
once `low > high`.  Fuel-indexed; the wrapper passes more fuel than the
interval length, which bounds the iteration count. -/
def fnbsAux (input : Int) (getVal : Int → Int) : Nat → Int → Int → Int
  | 0, low, _ => if 0 < low then low - 1 else 0
  | fuel + 1, low, high =>
    if low ≤ high then
      let mid := (low + high) / 2
      let val := getVal mid
      if input < val then fnbsAux input getVal fuel low (mid - 1)
      else if val < input then fnbsAux input getVal fuel (mid + 1) high
      else mid
    else if 0 < low then low - 1 else 0

/-- Modelled from the spec: wrapper fixing the fuel of `fnbsAux`. -/
def findNearestBinarySearch (low high input : Int) (getVal : Int → Int) : Int :=
  fnbsAux input getVal (high + 2 - low).toNat low high

/-- The `start` of entry `idx`, as the binary search's `getVal` callback
reads it (`(idx) => msData[idx].start`); total on out-of-range indices. -/
def startAtI (msData : List Measure) (idx : Int) : Int :=
  if 0 ≤ idx then ((msData.get? idx.toNat).map (·.start)).getD 0 else 0

/-- Source: the dynamic-size forward scan for `vStart` in `getCalcData`:
`while (vStart < msData.length && msData[vStart].start <
(msData[vStart + 1]?.start ?? 0) && msData[vStart].start +
msData[vStart].size < scrollOffset) vStart += 1`. -/
def dynScan (msData : List Measure) (scrollOffset : Int) : Nat → Nat → Nat
  | 0, v => v
  | fuel + 1, v =>
    match msData.get? v with
    | none => v
    | some m =>
      if m.start < ((msData.get? (v + 1)).map (·.start)).getD 0 ∧
          m.start + m.size < scrollOffset then
        dynScan msData scrollOffset fuel (v + 1)
      else v

/-- Source: the `vStop` accumulation loop in `getCalcData`:
`while (vStop < msData.length && currStart < scrollOffset + outerSize)
{ currStart += msData[vStop].size; vStop += 1 }`. -/
def vStopLoop (msData : List Measure) (limit : Int) : Nat → Nat → Int → Nat
  | 0, v, _ => v
  | fuel + 1, v, currStart =>
    match msData.get? v with
    | none => v
    | some m =>
      if currStart < limit then vStopLoop msData limit fuel (v + 1) (currStart + m.size)
      else v

/-- The record returned by `getCalcData`. -/
structure CalcData where
  oStart : Nat
  oStop : Int
  vStart : Nat
  vStop : Int
  margin : Int
  innerSize : Int
deriving Repr, DecidableEq

/-- The `vStart` search of `getCalcData`: forward linear scan once dynamic
sizing was observed, binary search over the `start` sequence otherwise. -/
def calcVStart (hasDynamicSize : Bool) (msData : List Measure) (scrollOffset : Int) : Nat :=
  if hasDynamicSize then dynScan msData scrollOffset (msData.length + 1) 0
  else (findNearestBinarySearch 0 ((msData.length : Int) - 1) scrollOffset
          (fun idx => startAtI msData idx)).toNat

/-- The exclusive `vStop` of `getCalcData`: the value of the loop variable
when the accumulation loop exits (the returned `vStop` is this minus one). -/
def calcVStopL (hasDynamicSize : Bool) (msData : List Measure)
    (outerSize scrollOffset : Int) : Nat :=
  vStopLoop msData (scrollOffset + outerSize) (msData.length + 1)
    (calcVStart hasDynamicSize msData scrollOffset)
    (((msData.get? (calcVStart hasDynamicSize msData scrollOffset)).map (·.start)).getD 0)

/-- The `totalSize` computed by `getCalcData`:
`Math[oStop < msData.length - 1 ? "max" : "min"](msData[oStop].end +
msData[oStop].size, msData[msData.length - 1].end)`. -/
def calcTotalSize (msData : List Measure) (oStop : Int) : Int :=
  let lastEnd := ((msData.get? (msData.length - 1)).map (·.end_)).getD 0
  let oVal := ((if 0 ≤ oStop then msData.get? oStop.toNat else none).map
      (fun m => m.end_ + m.size)).getD 0
  if oStop < (msData.length : Int) - 1 then max oVal lastEnd else min oVal lastEnd

/-- Source: `getCalcData(scrollOffset)`; `msData`, the overscan count, the
viewport size along the axis and the dynamic-size flag are read from the
surrounding refs and are passed here explicitly.  `oStart`'s
`Math.max(vStart - overscanCount, 0)` is truncated `Nat` subtraction. -/
def getCalcData (hasDynamicSize : Bool) (overscanCount : Nat) (msData : List Measure)
    (outerSize scrollOffset : Int) : CalcData :=
  let len := msData.length
  let vStart := calcVStart hasDynamicSize msData scrollOffset
  let vStopL := calcVStopL hasDynamicSize msData outerSize scrollOffset
  let oStart : Nat := vStart - overscanCount
  let oStop : Int := min ((vStopL : Int) + (overscanCount : Int)) (len : Int) - 1
  let margin := ((msData.get? oStart).map (·.start)).getD 0
  let totalSize := calcTotalSize msData oStop
  { oStart := oStart, oStop := oStop, vStart := vStart, vStop := (vStopL : Int) - 1,
    margin := margin, innerSize := totalSize - margin }

/-- The rendered item descriptor published to the renderer; the
`measureRef` callback capability is a contract, not state, and is omitted.
JS `isScrolling: uxScrolling || undefined` and
`isSticky: stickies.includes(i) || undefined` are modelled as `Bool`. -/
structure Item where
  index : Nat
  start : Int
  size : Int
  width : Int
  isScrolling : Bool
  isSticky : Bool
deriving Repr, DecidableEq

/-- The payload handed to `loadMore`. -/
structure LoadRequest where
  startIndex : Int
  stopIndex : Int
  loadIndex : Int
  scrollOffset : Int
  userScroll : Bool
deriving Repr, DecidableEq

/-- The configuration surface the embedded operations read (the refs holding
the latest option values).  `isItemLoaded = none` models the option being
absent; `hasLoadMore` models whether a `loadMore` callback was supplied. -/
structure Config where
  itemCount : Nat
  overscanCount : Nat
  loadMoreCount : Nat
  itemSize : ItemSize
  stickyIndices : Option (List Nat)
  hasLoadMore : Bool
  isItemLoaded : Option (Int → Bool)

/-- The mutable refs of the hook, gathered into one state record:
`msDataRef`, `hasDynamicSizeRef`, `isMountedRef`, `prevVStopRef`
(`none` = still `undefined`), `prevItemIdxRef` (initially `-1`),
`scrollOffsetRef`, `userScrollRef`, the published `items`, the outer
element's scroll position (`outer[scrollKey]`), the inner element's
published `(margin, size)` styles, and the outer rect (size along the
scroll axis and cross-size `width`). -/
structure EngineState where
  msData : List Measure
  hasDynamicSize : Bool
  isMounted : Bool
  prevVStop : Option Int
  prevItemIdx : Int
  scrollOffset : Int
  userScroll : Bool
  items : List Item
  containerOffset : Int
  inner : Option (Int × Int)
  outerSize : Int
  outerWidth : Int
deriving DecidableEq

/-- The initial ref values (`useRef(false)`, `useRef(0)`, `useRef(-1)`,
`useRef(true)`, …); `items` starts as the static seed, empty when no
`ssrItemCount` is configured. -/
def initEngineState : EngineState :=
  { msData := [], hasDynamicSize := false, isMounted := false, prevVStop := none,
    prevItemIdx := -1, scrollOffset := 0, userScroll := true, items := [],
    containerOffset := 0, inner := none, outerSize := 0, outerWidth := 0 }

/-- Source: `scrollTo(offset)`: write the outer element's scroll position
(the outer element is modelled as mounted). -/
def scrollTo (st : EngineState) (offset : Int) : EngineState :=
  { st with containerOffset := offset }

/-- The first argument of `scrollToOffset`: a number, or an options object
whose `offset` may be missing/non-numeric (`none`) and whose `smooth`
defaults to false. -/
inductive ScrollToVal where
  | num : Int → ScrollToVal
  | opts : Option Int → Bool → ScrollToVal

/-- Source: `scrollToOffset(val, cb)`.  Returns the state after the
synchronous part of the call together with whether the completion callback
ran synchronously.  A smooth scroll only schedules the frame-driven
animation (the frame scheduler is an external capability), so it neither
moves the container nor completes within the call. -/
def scrollToOffset (st : EngineState) (val : ScrollToVal) : EngineState × Bool :=
  let p : Option Int × Bool :=
    match val with
    | .num v => (some v, false)
    | .opts o s => (o, s)
  match p.1 with
  | none => (st, false)
  | some offset =>
    let st1 := { st with userScroll := false }
    if p.2 then (st1, false)
    else (scrollTo st1 offset, true)

/-- The alignment policy of `scrollToItem`. -/
inductive Align where
  | auto | start | center | end_
deriving Repr, DecidableEq

/-- The first argument of `scrollToItem`: a number, or an options object
whose `index` may be missing/non-numeric (`none`), with an alignment
(default `auto`) and a `smooth` flag. -/
inductive ScrollItemVal where
  | num : Int → ScrollItemVal
  | opts : Option Int → Align → Bool → ScrollItemVal

/-- Source: the `if (hasDynamicSizeRef.current) measureItems();` step at the
top of `scrollToItem`. -/
def remeasureForItem (cfg : Config) (st : EngineState) : EngineState :=
  if st.hasDynamicSize then
    { st with msData := (measureItems (getItemSize cfg.itemSize st.outerWidth) true
        st.msData cfg.itemCount) }
  else st

/-- Source: `scrollToItem(val, cb)`, one synchronous invocation.  Returns
`(state, completedSync, deferredReissue)`: `completedSync` is true when the
completion callback ran within the call, `deferredReissue` when the call
re-queued itself via `setTimeout` (dynamic sizing after a non-smooth
scroll). -/
def scrollToItem (cfg : Config) (st0 : EngineState) (val : ScrollItemVal) :
    EngineState × Bool × Bool :=
  let p : Option Int × Align × Bool :=
    match val with
    | .num v => (some v, Align.auto, false)
    | .opts i a s => (i, a, s)
  match p.1 with
  | none => (st0, false, false)
  | some index =>
    let st := remeasureForItem cfg st0
    let msData := st.msData
    let clamped := max 0 (min index ((msData.length : Int) - 1))
    match msData.get? clamped.toNat with
    | none => (st, false, false)
    | some ms =>
      let totalSize := ((msData.get? (msData.length - 1)).map (·.end_)).getD 0
      if totalSize ≤ st.outerSize then (st, true, false)
      else
        let endPos := ms.start - st.outerSize + ms.size
        let target :=
          match p.2.1 with
          | .start =>
            if totalSize - ms.start ≤ st.outerSize then totalSize - st.outerSize else ms.start
          | .center =>
            let to' := ms.start - st.outerSize / 2 + ms.size / 2
            if totalSize - to' ≤ st.outerSize then totalSize - st.outerSize else to'
          | .end_ => if ms.start + ms.size ≤ st.outerSize then 0 else endPos
          | .auto =>
            if st.scrollOffset > ms.start then ms.start
            else if st.scrollOffset + st.outerSize < ms.end_ then endPos
            else st.scrollOffset
        if st.hasDynamicSize ∧ (target - st.scrollOffset).natAbs ≤ 1 then (st, true, false)
        else
          let r := scrollToOffset st (.opts (some target) p.2.2)
          if r.2 then
            if r.1.hasDynamicSize then (r.1, false, true) else (r.1, true, false)
          else (r.1, false, false)

/-- Source: `isItemLoadedRef.current && isItemLoadedRef.current(k)`. -/
def isLoadedAt (cfg : Config) (k : Int) : Bool :=
  match cfg.isItemLoaded with
  | some f => f k
  | none => false

/-- Source: the `for (let i = oStart; i <= oStop; i += 1)` loop of
`handleScroll` building the next rendered items. -/
def renderItems (msData : List Measure) (width : Int) (uxScrolling : Bool)
    (stickies : List Nat) (oStart : Nat) (oStop : Int) (margin : Int) : List Item :=
  (List.range' oStart ((oStop + 1 - (oStart : Int)).toNat)).map fun i =>
    let m := (msData.get? i).getD ⟨0, 0, 0, 0⟩
    { index := i, start := m.start - margin, size := m.size, width := width,
      isScrolling := uxScrolling, isSticky := stickies.contains i }

/-- The binary search's `getVal` callback over the sticky indices:
`(idx) => stickies[idx]`. -/
def stickyVals (stickies : List Nat) (j : Int) : Int :=
  ((stickies.get? j.toNat).getD 0 : Nat)

/-- Source: the sticky block of `handleScroll`: binary-search the greatest
sticky index at or before `vStart`; when it lies before `oStart`, prepend
it pinned at `start = 0` and republish the styles as
`(margin - size, innerSize + size)`.  Returns the final item list and the
published `(margin, size)` styles. -/
def applySticky (msData : List Measure) (stickies : List Nat) (cd : CalcData)
    (uxScrolling : Bool) (width : Int) (baseItems : List Item) :
    List Item × Int × Int :=
  if stickies.isEmpty then (baseItems, cd.margin, cd.innerSize)
  else
    let r := findNearestBinarySearch 0 ((stickies.length : Int) - 1) (cd.vStart : Int)
        (stickyVals stickies)
    let stickyIdx := (stickies.get? r.toNat).getD 0
    if (stickyIdx : Int) < (cd.oStart : Int) then
      let size := ((msData.get? stickyIdx).map (·.size)).getD 0
      (({ index := stickyIdx, start := 0, size := size, width := width,
          isScrolling := uxScrolling, isSticky := true } : Item) :: baseItems,
       cd.margin - size, cd.innerSize + size)
    else (baseItems, cd.margin, cd.innerSize)

/-- Source: `handleScroll(scrollOffset, isScrolling, uxScrolling)` (the inner
element is modelled as mounted).  Returns the new state and the list of
`loadMore` requests emitted during the call.  `setItems` keeps the previous
array when `shouldUpdate` finds no content change; since the embedded items
carry no `measureRef`, storing `nextItems` unconditionally is extensionally
the same.  The `onScroll` observer emission carries no state and is not
modelled. -/
def handleScroll (cfg : Config) (st : EngineState) (scrollOffset : Int)
    (isScrolling uxScrolling : Bool) : EngineState × List LoadRequest :=
  let mountLoads : List LoadRequest :=
    if cfg.hasLoadMore && !st.isMounted && !(isLoadedAt cfg 0) then
      [{ startIndex := 0, stopIndex := (cfg.loadMoreCount : Int) - 1, loadIndex := 0,
         scrollOffset := scrollOffset, userScroll := st.userScroll }]
    else []
  if cfg.itemCount = 0 then ({ st with items := [] }, mountLoads)
  else
    let cd := getCalcData st.hasDynamicSize cfg.overscanCount st.msData st.outerSize
        scrollOffset
    let stickies := cfg.stickyIndices.getD []
    let baseItems := renderItems st.msData st.outerWidth uxScrolling stickies
        cd.oStart cd.oStop cd.margin
    let rendered := applySticky st.msData stickies cd uxScrolling st.outerWidth baseItems
    let st1 := { st with items := rendered.1, inner := some (rendered.2.1, rendered.2.2) }
    if !isScrolling then (st1, mountLoads)
    else
      let loadIndex := Int.fdiv (cd.vStop + 1) (cfg.loadMoreCount : Int)
      let startIndex := loadIndex * (cfg.loadMoreCount : Int)
      let scrollLoads : List LoadRequest :=
        if cfg.hasLoadMore && !(st.prevVStop == some cd.vStop) && !(isLoadedAt cfg loadIndex) then
          [{ startIndex := startIndex,
             stopIndex := startIndex + (cfg.loadMoreCount : Int) - 1,
             loadIndex := loadIndex, scrollOffset := scrollOffset,
             userScroll := st.userScroll }]
        else []
      ({ st1 with prevVStop := some cd.vStop }, mountLoads ++ scrollLoads)

/-- Source: the `scroll` event handler installed on the outer element:
ignore the event when the offset did not change, otherwise run
`handleScroll(offset, true, uxScrolling)` and record the new authoritative
offset.  `uxScrolling` (the resolved `useIsScrolling` option) is passed in
by the caller. -/
def scrollEvent (cfg : Config) (st : EngineState) (offset : Int)
    (uxScrolling : Bool) : EngineState × List LoadRequest :=
  if offset = st.scrollOffset then (st, [])
  else
    let r := handleScroll cfg st offset true uxScrolling
    ({ r.1 with scrollOffset := offset }, r.2)

/-- Source: the size-probe (`ResizeObserver`) callback attached by
`measureRef` of item `i`.  `capturedStart`, `capturedSize`,
`capturedOffset`, `isScrolling` and `uxScrolling` are the values the JS
closure captured when the item was rendered; `measuredSize` is the fresh
measurement.  A zero measurement means the element was unmounted: the
observer is released and nothing else happens. -/
def probeReport (cfg : Config) (st : EngineState) (i : Nat)
    (capturedStart capturedSize capturedOffset : Int)
    (isScrolling uxScrolling : Bool) (measuredSize : Int) :
    EngineState × List LoadRequest :=
  if measuredSize = 0 then (st, [])
  else
    let prevEnd := if i = 0 then 0 else ((st.msData.get? (i - 1)).map (·.end_)).getD 0
    if measuredSize ≠ capturedSize ∨ capturedStart ≠ prevEnd then
      let st1 :=
        if (i : Int) < st.prevItemIdx ∧ capturedStart < capturedOffset then
          scrollTo st (capturedOffset + measuredSize - capturedSize)
        else st
      let st2 := { st1 with msData := st1.msData.set i (getMeasure st1.msData i measuredSize) }
      let r := handleScroll cfg st2 capturedOffset isScrolling uxScrolling
      ({ r.1 with hasDynamicSize := true, prevItemIdx := i }, r.2)
    else ({ st with prevItemIdx := i }, [])

/-- Source: the container-resize callback (`useResizeEffect`): store the new
rect, rebuild the measurement store (reusing cached sizes once dynamic
sizing was seen), re-run `handleScroll`, rescale the scroll position on a
cross-size change while sizes are static (the JS float ratio
`totalSize / prevTotalSize || 1` is modelled with integer flooring), and
mark the hook mounted. -/
def resizeEvent (cfg : Config) (st : EngineState) (newWidth newSize : Int) :
    EngineState × List LoadRequest :=
  let isSameWidth := st.outerWidth = newWidth
  let prevTotal := ((st.msData.get? (st.msData.length - 1)).map (·.end_)).getD 0
  let st1 := { st with outerWidth := newWidth, outerSize := newSize }
  let st2 := { st1 with msData := (measureItems (getItemSize cfg.itemSize newWidth)
      st1.hasDynamicSize st1.msData cfg.itemCount) }
  let r := handleScroll cfg st2 st2.scrollOffset false false
  let st3 := r.1
  let st4 :=
    if ¬st3.hasDynamicSize ∧ ¬isSameWidth then
      let totalSize := ((st3.msData.get? (st3.msData.length - 1)).map (·.end_)).getD 0
      if prevTotal = 0 then scrollTo st3 st3.scrollOffset
      else scrollTo st3 (Int.fdiv (st3.scrollOffset * totalSize) prevTotal)
    else st3
  ({ st4 with isMounted := true }, r.2)

/-- The discrete events the engine reacts to: a scroll event, a size-probe
report, a container resize, the two public navigation calls, and the two
debounced resets (`userScrollRef.current = true`, and the trailing
`handleScroll(scrollOffsetRef.current)` that clears `isScrolling`). -/
inductive Op where
  | scroll (offset : Int) (uxScrolling : Bool)
  | probe (i : Nat) (capturedStart capturedSize capturedOffset : Int)
      (isScrolling uxScrolling : Bool) (measuredSize : Int)
  | resize (newWidth newSize : Int)
  | toOffset (val : ScrollToVal)
  | toItem (val : ScrollItemVal)
  | resetUserScroll
  | resetIsScrolling

/-- One engine step: dispatch an event to its embedded handler and keep the
resulting state. -/
def applyOp (cfg : Config) (op : Op) (st : EngineState) : EngineState :=
  match op with
  | .scroll o ux => (scrollEvent cfg st o ux).1
  | .probe i cs csz co is ux m => (probeReport cfg st i cs csz co is ux m).1
  | .resize w s => (resizeEvent cfg st w s).1
  | .toOffset v => (scrollToOffset st v).1
  | .toItem v => (scrollToItem cfg st v).1
  | .resetUserScroll => { st with userScroll := true }
  | .resetIsScrolling => (handleScroll cfg st st.scrollOffset false false).1

/-- A sequence of engine steps. -/
def applyOps (cfg : Config) (ops : List Op) (st : EngineState) : EngineState :=
  ops.foldl (fun s op => applyOp cfg op s) st

/-- The only event that may raise `hasDynamicSize`: a size-probe report of a
mounted element (`measuredSize ≠ 0`) whose measurement disagrees with the
stored geometry (`measuredSize !== size || start !== prevEnd`). -/
def probeMismatch (op : Op) (st : EngineState) : Prop :=
  match op with
  | .probe i capturedStart capturedSize _ _ _ measuredSize =>
    measuredSize ≠ 0 ∧
      (measuredSize ≠ capturedSize ∨
        capturedStart ≠ (if i = 0 then 0 else ((st.msData.get? (i - 1)).map (·.end_)).getD 0))
  | _ => False

/-! ### Measurement-store lemmas -/

lemma buildMeasures_length (f : Nat → Int) (n : Nat) : (buildMeasures f n).length = n := by
  induction n with
  | zero => rfl
  | succ n ih => simp [buildMeasures, ih]

/-- Closed form of a store rebuilt from a constant size `s`. -/
def msConst (s : Int) (n : Nat) : List Measure :=
  (List.range n).map fun i => ⟨i, i * s, i * s + s, s⟩

lemma msConst_getElem? (s : Int) (n i : Nat) (h : i < n) :
    (msConst s n)[i]? = some ⟨i, i * s, i * s + s, s⟩ := by
  simp [msConst, List.getElem?_map, List.getElem?_range, h]

lemma msConst_get? (s : Int) (n i : Nat) (h : i < n) :
    (msConst s n).get? i = some ⟨i, i * s, i * s + s, s⟩ := by
  rw [List.get?_eq_getElem?, msConst_getElem? s n i h]

lemma buildMeasures_const (f : Nat → Int) (s : Int) (n : Nat)
    (hf : ∀ i, i < n → f i = s) : buildMeasures f n = msConst s n := by
  induction n with
  | zero => rfl
  | succ n ih =>
    have ihn : buildMeasures f n = msConst s n :=
      ih fun i hi => hf i (Nat.lt_succ_of_lt hi)
    have hfn : f n = s := hf n (Nat.lt_succ_self n)
    have hget : getMeasure (msConst s n) n (f n) = ⟨n, n * s, n * s + s, s⟩ := by
      rcases Nat.eq_zero_or_pos n with h0 | hpos
      · subst h0; simp [getMeasure, hfn]
      · have h1 : n - 1 < n := Nat.sub_lt hpos Nat.one_pos
        have : ((n - 1 : Nat) : Int) * s + s = (n : Int) * s := by
          have : ((n - 1 : Nat) : Int) = (n : Int) - 1 := by
            omega
          rw [this]; ring
        simp [getMeasure, Nat.pos_iff_ne_zero.mp hpos, msConst_getElem? s n (n - 1) h1, hfn,
          this]
    calc buildMeasures f (n + 1)
        = buildMeasures f n ++ [getMeasure (buildMeasures f n) n (f n)] := rfl
      _ = msConst s n ++ [⟨n, n * s, n * s + s, s⟩] := by rw [ihn, hget]
      _ = msConst s (n + 1) := by
          simp [msConst, List.range_succ]

/-- C5.  For a constant configured `itemSize` `s` (any container width `w`)
and any item count `n`, a rebuild of the measurement store — with or without
the cache, provided any cached entries also carry size `s` — yields the
cumulative-sum layout: entry `i` has `start = i*s` (the sum of the sizes of
items `0..i-1`), `end = (i+1)*s` and `size = s`; in particular the last
entry's `end` is `n*s`. -/
theorem measureItems_const_layout (s w : Int) (n : Nat) (useCache : Bool)
    (old : List Measure) (hold : ∀ m ∈ old, m.size = s) :
    measureItems (getItemSize (ItemSize.const s) w) useCache old n = msConst s n ∧
    (∀ i, i < n →
      (measureItems (getItemSize (ItemSize.const s) w) useCache old n).get? i
        = some ⟨i, i * s, i * s + s, s⟩) ∧
    (0 < n →
      ((measureItems (getItemSize (ItemSize.const s) w) useCache old n).get? (n - 1)).map
          (·.end_) = some ((n : Int) * s)) := by
  have hsize : ∀ i, i < n → cachedSize useCache old (getItemSize (ItemSize.const s) w) i = s := by
    intro i _
    unfold cachedSize
    cases useCache with
    | false => rfl
    | true =>
      simp only [if_pos]
      cases hj : old.get? i with
      | none => rfl
      | some m =>
        have : m ∈ old := List.get?_mem hj
        simpa using hold m this
  have hmain : measureItems (getItemSize (ItemSize.const s) w) useCache old n = msConst s n :=
    buildMeasures_const _ s n hsize
  refine ⟨hmain, ?_, ?_⟩
  · intro i hi
    rw [hmain, msConst_get? s n i hi]
  · intro hn
    have h1 : n - 1 < n := Nat.sub_lt hn Nat.one_pos
    rw [hmain, msConst_get? s n (n - 1) h1]
    have : ((n - 1 : Nat) : Int) * s + s = (n : Int) * s := by
      have : ((n - 1 : Nat) : Int) = (n : Int) - 1 := by omega
      rw [this]; ring
    simp [this]

/-- Witness for C5 at `s = 7`, `n = 4`, a cached rebuild over an empty prior
store. -/
theorem measureItems_const_layout_witness :
    (∀ m ∈ ([] : List Measure), m.size = 7) ∧
    measureItems (getItemSize (ItemSize.const 7) 0) true [] 4 = msConst 7 4 :=
  ⟨by simp, (measureItems_const_layout 7 0 4 true [] (by simp)).1⟩

/-! ### Window-calculator lemmas -/

lemma getCalcData_vStart (hds : Bool) (oc : Nat) (msData : List Measure)
    (outerSize off : Int) :
    (getCalcData hds oc msData outerSize off).vStart = calcVStart hds msData off := rfl

lemma getCalcData_oStart (hds : Bool) (oc : Nat) (msData : List Measure)
    (outerSize off : Int) :
    (getCalcData hds oc msData outerSize off).oStart = calcVStart hds msData off - oc := rfl

lemma getCalcData_vStop (hds : Bool) (oc : Nat) (msData : List Measure)
    (outerSize off : Int) :
    (getCalcData hds oc msData outerSize off).vStop
      = (calcVStopL hds msData outerSize off : Int) - 1 := rfl

lemma getCalcData_oStop (hds : Bool) (oc : Nat) (msData : List Measure)
    (outerSize off : Int) :
    (getCalcData hds oc msData outerSize off).oStop
      = min ((calcVStopL hds msData outerSize off : Int) + (oc : Int))
          (msData.length : Int) - 1 := rfl

lemma fnbsAux_bound (input : Int) (getVal : Int → Int) :
    ∀ (fuel : Nat) (low high H : Int), 0 ≤ low → high ≤ H → low ≤ H + 1 →
      0 ≤ fnbsAux input getVal fuel low high ∧ fnbsAux input getVal fuel low high ≤ max H 0 := by
  intro fuel
  induction fuel with
  | zero =>
    intro low high H h0 hH hlH
    simp only [fnbsAux]
    split
    · exact ⟨by omega, le_max_of_le_left (by omega)⟩
    · exact ⟨le_refl 0, le_max_right H 0⟩
  | succ fuel ih =>
    intro low high H h0 hH hlH
    simp only [fnbsAux]
    by_cases hlh : low ≤ high
    · rw [if_pos hlh]
      have hm1 : low ≤ (low + high) / 2 := by omega
      have hm2 : (low + high) / 2 ≤ high := by omega
      split
      · exact ih low ((low + high) / 2 - 1) H h0 (by omega) (by omega)
      · split
        · exact ih ((low + high) / 2 + 1) high H (by omega) hH (by omega)
        · exact ⟨by omega, le_max_of_le_left (by omega)⟩
    · rw [if_neg hlh]
      split
      · exact ⟨by omega, le_max_of_le_left (by omega)⟩
      · exact ⟨le_refl 0, le_max_right H 0⟩

lemma fnbs_bound (input : Int) (getVal : Int → Int) (high : Int) (hH : 0 ≤ high) :
    0 ≤ findNearestBinarySearch 0 high input getVal ∧
      findNearestBinarySearch 0 high input getVal ≤ high := by
  have h := fnbsAux_bound input getVal ((high + 2 - 0).toNat) 0 high high le_rfl le_rfl
    (by omega)
  rw [max_eq_left hH] at h
  exact h

lemma get?_some_lt {msData : List Measure} {v : Nat} {m : Measure}
    (h : msData.get? v = some m) : v < msData.length := by
  by_contra hc
  rw [List.get?_eq_none.mpr (by omega)] at h
  exact Option.noConfusion h

lemma dynScan_le (msData : List Measure) (off : Int) :
    ∀ (fuel v : Nat), v ≤ msData.length → dynScan msData off fuel v ≤ msData.length := by
  intro fuel
  induction fuel with
  | zero => intro v hv; simpa [dynScan] using hv
  | succ fuel ih =>
    intro v hv
    simp only [dynScan]
    cases hm : msData.get? v with
    | none => simpa using hv
    | some m =>
      simp only
      split
      · exact ih (v + 1) (get?_some_lt hm)
      · exact hv

lemma dynScan_le_pred (msData : List Measure) (off : Int)
    (hpos : ∀ m ∈ msData, 0 ≤ m.start) :
    ∀ (fuel v : Nat), v ≤ msData.length - 1 → 0 < msData.length →
      dynScan msData off fuel v ≤ msData.length - 1 := by
  intro fuel
  induction fuel with
  | zero => intro v hv _; simpa [dynScan] using hv
  | succ fuel ih =>
    intro v hv hlen
    simp only [dynScan]
    cases hm : msData.get? v with
    | none => simpa using hv
    | some m =>
      simp only
      split
      · rename_i hguard
        have hvlt : v < msData.length := get?_some_lt hm
        have hne : v ≠ msData.length - 1 := by
          intro he
          have hnone : msData.get? (v + 1) = none := by
            apply List.get?_eq_none.mpr; omega
          rw [hnone] at hguard
          have : (0 : Int) ≤ m.start := hpos m (List.get?_mem hm)
          simp at hguard
          omega
        exact ih (v + 1) (by omega) hlen
      · exact hv

lemma dynScan_prefix (msData : List Measure) (off : Int) :
    ∀ (fuel v j : Nat), v ≤ j → j < dynScan msData off fuel v →
      ∃ m, msData.get? j = some m ∧
        m.start < ((msData.get? (j + 1)).map (·.start)).getD 0 ∧
        m.start + m.size < off := by
  intro fuel
  induction fuel with
  | zero =>
    intro v j hvj hj
    simp only [dynScan] at hj
    omega
  | succ fuel ih =>
    intro v j hvj hj
    simp only [dynScan] at hj
    cases hm : msData.get? v with
    | none => rw [hm] at hj; simp at hj; omega
    | some m =>
      rw [hm] at hj
      simp only at hj
      by_cases hguard : m.start < ((msData.get? (v + 1)).map (·.start)).getD 0 ∧
          m.start + m.size < off
      · rw [if_pos hguard] at hj
        rcases Nat.eq_or_lt_of_le hvj with he | hlt
        · subst he; exact ⟨m, hm, hguard.1, hguard.2⟩
        · exact ih (v + 1) j hlt hj
      · rw [if_neg hguard] at hj
        omega

lemma vStopLoop_le (msData : List Measure) (limit : Int) :
    ∀ (fuel v : Nat) (c : Int), v ≤ msData.length →
      vStopLoop msData limit fuel v c ≤ msData.length := by
  intro fuel
  induction fuel with
  | zero => intro v c hv; simpa [vStopLoop] using hv
  | succ fuel ih =>
    intro v c hv
    simp only [vStopLoop]
    cases hm : msData.get? v with
    | none => simpa using hv
    | some m =>
      simp only
      split
      · exact ih (v + 1) (c + m.size) (get?_some_lt hm)
      · exact hv

lemma calcVStart_le (hds : Bool) (msData : List Measure) (off : Int) :
    calcVStart hds msData off ≤ msData.length := by
  unfold calcVStart
  split
  · exact dynScan_le msData off (msData.length + 1) 0 (Nat.zero_le _)
  · rcases Nat.eq_zero_or_pos msData.length with h0 | hpos
    · have : ((msData.length : Int) - 1) = -1 := by omega
      rw [this]
      have : findNearestBinarySearch 0 (-1) off (fun idx => startAtI msData idx) = 0 := by
        simp [findNearestBinarySearch, fnbsAux]
      rw [this]; omega
    · have hb := fnbs_bound off (fun idx => startAtI msData idx)
        ((msData.length : Int) - 1) (by omega)
      omega

lemma calcVStopL_le (hds : Bool) (msData : List Measure) (outerSize off : Int) :
    calcVStopL hds msData outerSize off ≤ msData.length :=
  vStopLoop_le msData (off + outerSize) (msData.length + 1) _ _
    (calcVStart_le hds msData off)

/-- C6.  For every measurement-store state with at least one item and every
scroll offset `o` with `0 ≤ o ≤ totalSize - viewportSize`, in either search
mode the window calculator returns an overscan range containing the visible
range, with `overscanStart ≥ 0` and `overscanStop ≤ itemCount - 1`. -/
theorem calcData_overscan_contains_visible (hds : Bool) (oc : Nat)
    (msData : List Measure) (outerSize off : Int) (hlen : 0 < msData.length)
    (hoff0 : 0 ≤ off)
    (hoff1 : off ≤ ((msData.get? (msData.length - 1)).map (·.end_)).getD 0 - outerSize) :
    (getCalcData hds oc msData outerSize off).oStart
        ≤ (getCalcData hds oc msData outerSize off).vStart ∧
    (getCalcData hds oc msData outerSize off).vStop
        ≤ (getCalcData hds oc msData outerSize off).oStop ∧
    (0 : Int) ≤ ((getCalcData hds oc msData outerSize off).oStart : Int) ∧
    (getCalcData hds oc msData outerSize off).oStop ≤ (msData.length : Int) - 1 := by
  have hsl := calcVStopL_le hds msData outerSize off
  refine ⟨?_, ?_, ?_, ?_⟩
  · rw [getCalcData_oStart, getCalcData_vStart]; omega
  · rw [getCalcData_vStop, getCalcData_oStop]; omega
  · omega
  · rw [getCalcData_oStop]; omega

set_option maxRecDepth 100000 in
/-- Witness for C6: 1000 fixed-size items, viewport 500, offset 250. -/
theorem calcData_overscan_contains_visible_witness :
    (getCalcData false 1 (msConst 100 1000) 500 250).oStart
        ≤ (getCalcData false 1 (msConst 100 1000) 500 250).vStart ∧
    (getCalcData false 1 (msConst 100 1000) 500 250).vStop
        ≤ (getCalcData false 1 (msConst 100 1000) 500 250).oStop ∧
    (0 : Int) ≤ ((getCalcData false 1 (msConst 100 1000) 500 250).oStart : Int) ∧
    (getCalcData false 1 (msConst 100 1000) 500 250).oStop
        ≤ ((msConst 100 1000).length : Int) - 1 :=
  calcData_overscan_contains_visible false 1 (msConst 100 1000) 500 250
    (by decide) (by decide) (by decide)

/-- C10.  For every measurement-store state with at least one item (entries
having nonnegative `start`s, as every reachable store does), the start-index
search returns an in-bounds index in both modes, and in dynamic mode every
index the linear scan stepped past satisfied the full loop guard — so the
scan halts no later than the last index and no later than the first pair of
non-strictly-increasing `start`s (`start` past the end reading as `0`). -/
theorem startSearch_inBounds (oc : Nat) (msData : List Measure) (outerSize off : Int)
    (hlen : 0 < msData.length) (hpos : ∀ m ∈ msData, 0 ≤ m.start) :
    (getCalcData false oc msData outerSize off).vStart ≤ msData.length - 1 ∧
    (getCalcData true oc msData outerSize off).vStart ≤ msData.length - 1 ∧
    (∀ j, j < dynScan msData off (msData.length + 1) 0 →
      ∃ m, msData.get? j = some m ∧
        m.start < ((msData.get? (j + 1)).map (·.start)).getD 0 ∧
        m.start + m.size < off) ∧
    (∀ j m, msData.get? j = some m →
      ¬ (m.start < ((msData.get? (j + 1)).map (·.start)).getD 0 ∧
          m.start + m.size < off) →
      dynScan msData off (msData.length + 1) 0 ≤ j) := by
  have hdynpred := dynScan_le_pred msData off hpos (msData.length + 1) 0 (by omega) hlen
  refine ⟨?_, ?_, ?_, ?_⟩
  · rw [getCalcData_vStart]
    unfold calcVStart
    rw [if_neg (by simp)]
    have hb := fnbs_bound off (fun idx => startAtI msData idx) ((msData.length : Int) - 1)
      (by omega)
    omega
  · rw [getCalcData_vStart]
    unfold calcVStart
    rw [if_pos rfl]
    exact hdynpred
  · exact fun j hj => dynScan_prefix msData off (msData.length + 1) 0 j (Nat.zero_le j) hj
  · intro j m hm hng
    by_contra hc
    rcases dynScan_prefix msData off (msData.length + 1) 0 j (Nat.zero_le j) (by omega)
      with ⟨m', hm', hg1, hg2⟩
    rw [hm] at hm'
    cases hm'
    exact hng ⟨hg1, hg2⟩

/-- Witness for C10: five fixed-size items. -/
theorem startSearch_inBounds_witness :
    (getCalcData false 1 (msConst 100 5) 500 250).vStart ≤ (msConst 100 5).length - 1 ∧
    (getCalcData true 1 (msConst 100 5) 500 250).vStart ≤ (msConst 100 5).length - 1 ∧
    (∀ j, j < dynScan (msConst 100 5) 250 ((msConst 100 5).length + 1) 0 →
      ∃ m, (msConst 100 5).get? j = some m ∧
        m.start < (((msConst 100 5).get? (j + 1)).map (·.start)).getD 0 ∧
        m.start + m.size < 250) ∧
    (∀ j m, (msConst 100 5).get? j = some m →
      ¬ (m.start < (((msConst 100 5).get? (j + 1)).map (·.start)).getD 0 ∧
          m.start + m.size < 250) →
      dynScan (msConst 100 5) 250 ((msConst 100 5).length + 1) 0 ≤ j) :=
  startSearch_inBounds 1 (msConst 100 5) 500 250 (by decide) (by decide)

/-! ### Concrete stores used by the scenario theorems -/

/-- A four-item store with sizes `1, 100, 1, 1`, built by the measurement
store from an `itemSize` function. -/
def store4 : List Measure :=
  measureItems (getItemSize (ItemSize.fn fun i _ => [(1 : Int), 100, 1, 1].get? i) 0)
    false [] 4

/-- The spec's concrete scenario store: 1000 items of fixed size 100. -/
def store1000 : List Measure :=
  measureItems (getItemSize (ItemSize.const 100) 0) false [] 1000

lemma store1000_eq : store1000 = msConst 100 1000 :=
  (measureItems_const_layout 100 0 1000 false [] (by simp)).1

/-! ### Total-size lemmas (C1) -/

lemma getCalcData_margin_add_innerSize (hds : Bool) (oc : Nat) (msData : List Measure)
    (outerSize off : Int) :
    (getCalcData hds oc msData outerSize off).margin
        + (getCalcData hds oc msData outerSize off).innerSize
      = calcTotalSize msData ((getCalcData hds oc msData outerSize off).oStop) := by
  simp only [getCalcData]
  ring

lemma getCalcData_oStop_nonneg (hds : Bool) (oc : Nat) (msData : List Measure)
    (outerSize off : Int) (hlen : 0 < msData.length) (hoc : 1 ≤ oc) :
    0 ≤ (getCalcData hds oc msData outerSize off).oStop := by
  rw [getCalcData_oStop]
  omega

/-- C1 (amended).  With at least one item, an overscan count of at least one
and a nonnegative final size, the window calculator's `margin + innerSize`
equals the true final `end` when the overscanned range reaches the last
item, and otherwise equals `max(end(overscanStop) + size(overscanStop),
end(last))` — never less than, but possibly more than, the final extent. -/
theorem getCalcData_totalSize (hds : Bool) (oc : Nat) (msData : List Measure)
    (outerSize off : Int) (hlen : 0 < msData.length) (hoc : 1 ≤ oc)
    (hsz : 0 ≤ (((msData.get? (msData.length - 1)).map (·.size)).getD 0)) :
    ((getCalcData hds oc msData outerSize off).oStop = (msData.length : Int) - 1 →
      (getCalcData hds oc msData outerSize off).margin
          + (getCalcData hds oc msData outerSize off).innerSize
        = ((msData.get? (msData.length - 1)).map (·.end_)).getD 0) ∧
    ((getCalcData hds oc msData outerSize off).oStop < (msData.length : Int) - 1 →
      (getCalcData hds oc msData outerSize off).margin
          + (getCalcData hds oc msData outerSize off).innerSize
        = max (((msData.get?
              ((getCalcData hds oc msData outerSize off).oStop.toNat)).map
              (fun m => m.end_ + m.size)).getD 0)
            (((msData.get? (msData.length - 1)).map (·.end_)).getD 0)) := by
  have h0 := getCalcData_oStop_nonneg hds oc msData outerSize off hlen hoc
  rw [getCalcData_margin_add_innerSize]
  constructor
  · intro he
    rw [he]
    unfold calcTotalSize
    rw [if_neg (by omega), if_pos (by omega)]
    have htn : ((msData.length : Int) - 1).toNat = msData.length - 1 := by omega
    rw [htn]
    cases hm : msData.get? (msData.length - 1) with
    | none =>
      have : msData.length ≤ msData.length - 1 := List.get?_eq_none.mp hm
      omega
    | some m =>
      rw [hm] at hsz
      simp only [Option.map_some', Option.getD_some] at hsz ⊢
      omega
  · intro hlt
    unfold calcTotalSize
    rw [if_pos hlt, if_pos h0]

/-- Witness for C1: four items of sizes `1, 100, 1, 1`, viewport 1,
offset 0, overscan 1: the overscanned range stops at index 1, and the
published total is `max(101 + 100, 103) = 201`. -/
theorem getCalcData_totalSize_witness :
    (getCalcData false 1 store4 1 0).oStop < ((store4.length : Int) - 1) ∧
    (getCalcData false 1 store4 1 0).margin + (getCalcData false 1 store4 1 0).innerSize
      = max (((store4.get? ((getCalcData false 1 store4 1 0).oStop.toNat)).map
            (fun m => m.end_ + m.size)).getD 0)
          (((store4.get? (store4.length - 1)).map (·.end_)).getD 0) :=
  ⟨by decide,
    (getCalcData_totalSize false 1 store4 1 0 (by decide) (by decide) (by decide)).2
      (by decide)⟩

/-- C1 counterexample: on the same four-item store the claim's bound and
formula both fail: the published `margin + innerSize` is `201`, strictly
more than the final item's `end` `103`, and differs from
`min(end(overscanStop) + size(overscanStop), end(last)) = 103`. -/
theorem totalSize_claim_false :
    (getCalcData false 1 store4 1 0).oStop = 1 ∧ store4.length = 4 ∧
    (getCalcData false 1 store4 1 0).margin + (getCalcData false 1 store4 1 0).innerSize
      = 201 ∧
    ((store4.get? 3).map (·.end_)).getD 0 = 103 ∧
    min (((store4.get? 1).map (fun m => m.end_ + m.size)).getD 0)
        (((store4.get? 3).map (·.end_)).getD 0) = 103 ∧
    ¬ ((getCalcData false 1 store4 1 0).margin + (getCalcData false 1 store4 1 0).innerSize
        ≤ ((store4.get? 3).map (·.end_)).getD 0) := by
  decide

/-! ### Concrete scenario: 1000 fixed-size items, viewport 500, offset 250 (C2) -/

set_option maxRecDepth 100000 in
/-- C2 counterexample: at scroll offset 250 the calculator does not return
the claimed ranges — the visible stop is 7 (item 7 spans `[700, 800)` and
overlaps the viewport `[250, 750)`), not 6, and the overscan stop is 8, not
7. -/
theorem calcData_offset250_claim_false :
    ¬ ((getCalcData false 1 store1000 500 250).vStart = 2 ∧
       (getCalcData false 1 store1000 500 250).vStop = 6 ∧
       (getCalcData false 1 store1000 500 250).oStart = 1 ∧
       (getCalcData false 1 store1000 500 250).oStop = 7) := by
  rw [store1000_eq]
  decide

set_option maxRecDepth 100000 in
/-- C2 (amended).  With 1000 items of fixed size 100, viewport 500 and
overscan 1, the calculator at offset 250 returns `visibleStart = 2`,
`visibleStop = 7`, `overscanStart = 1` and `overscanStop = 8`. -/
theorem calcData_offset250 :
    (getCalcData false 1 store1000 500 250).vStart = 2 ∧
    (getCalcData false 1 store1000 500 250).vStop = 7 ∧
    (getCalcData false 1 store1000 500 250).oStart = 1 ∧
    (getCalcData false 1 store1000 500 250).oStop = 8 := by
  rw [store1000_eq]
  decide

/-! ### Scroll navigator (C7, C9) -/

/-- C7.  A non-smooth `scrollToOffset` with a numeric target (given either
as a bare number or as `{offset, smooth: false}`) immediately writes the
container's scroll position, so reading it back yields exactly `o`, and the
completion callback runs synchronously within the call. -/
theorem scrollToOffset_roundtrip (st : EngineState) (o : Int) :
    (scrollToOffset st (.opts (some o) false)).1.containerOffset = o ∧
    (scrollToOffset st (.opts (some o) false)).2 = true ∧
    (scrollToOffset st (.num o)).1.containerOffset = o ∧
    (scrollToOffset st (.num o)).2 = true :=
  ⟨rfl, rfl, rfl, rfl⟩

/-- C9.  A `scrollTo`/`scrollToItem` call whose options carry no numeric
offset/index returns without scrolling, without invoking the completion
callback, and with the whole engine state unchanged. -/
theorem nonNumeric_noop (cfg : Config) (st : EngineState) (a : Align) (s1 s2 : Bool) :
    scrollToOffset st (.opts none s1) = (st, false) ∧
    scrollToItem cfg st (.opts none a s2) = (st, false, false) :=
  ⟨rfl, rfl⟩

/-! ### Stickiness of the dynamic-size flag (C8) -/

lemma handleScroll_hds (cfg : Config) (st : EngineState) (off : Int)
    (isScrolling uxScrolling : Bool) :
    (handleScroll cfg st off isScrolling uxScrolling).1.hasDynamicSize
      = st.hasDynamicSize := by
  simp only [handleScroll]
  split
  · rfl
  · split <;> rfl

lemma scrollToOffset_hds (st : EngineState) (val : ScrollToVal) :
    (scrollToOffset st val).1.hasDynamicSize = st.hasDynamicSize := by
  cases val with
  | num v => rfl
  | opts o s =>
    cases o with
    | none => rfl
    | some v => cases s <;> rfl

lemma remeasureForItem_hds (cfg : Config) (st : EngineState) :
    (remeasureForItem cfg st).hasDynamicSize = st.hasDynamicSize := by
  unfold remeasureForItem
  split <;> rfl

set_option maxHeartbeats 2000000 in
lemma scrollToItem_hds (cfg : Config) (st : EngineState) (val : ScrollItemVal) :
    (scrollToItem cfg st val).1.hasDynamicSize = st.hasDynamicSize := by
  have hu : (remeasureForItem cfg st).hasDynamicSize = st.hasDynamicSize :=
    remeasureForItem_hds cfg st
  simp only [scrollToItem]
  split
  · rfl
  · generalize hgu : remeasureForItem cfg st = u
    rw [hgu] at hu
    split
    · exact hu
    · split
      · exact hu
      · repeat' split
        all_goals
          first
            | exact hu
            | exact (scrollToOffset_hds u _).trans hu

lemma scrollEvent_hds (cfg : Config) (st : EngineState) (offset : Int) (ux : Bool) :
    (scrollEvent cfg st offset ux).1.hasDynamicSize = st.hasDynamicSize := by
  simp only [scrollEvent]
  split
  · rfl
  · exact handleScroll_hds cfg st offset true ux

lemma resizeEvent_hds (cfg : Config) (st : EngineState) (w s : Int) :
    (resizeEvent cfg st w s).1.hasDynamicSize = st.hasDynamicSize := by
  simp only [resizeEvent, scrollTo]
  split
  · split
    · exact handleScroll_hds cfg _ _ false false
    · exact handleScroll_hds cfg _ _ false false
  · exact handleScroll_hds cfg _ _ false false

/-- Per-step effect on the dynamic-size flag: every engine operation leaves
it unchanged, except a mismatching size-probe report, which sets it to
`true`. -/
lemma applyOp_hds (cfg : Config) (op : Op) (st : EngineState) :
    (applyOp cfg op st).hasDynamicSize = st.hasDynamicSize ∨
      ((applyOp cfg op st).hasDynamicSize = true ∧ probeMismatch op st) := by
  cases op with
  | scroll o ux => exact Or.inl (scrollEvent_hds cfg st o ux)
  | probe i cs csz co is ux m =>
    have happ : applyOp cfg (Op.probe i cs csz co is ux m) st
        = (probeReport cfg st i cs csz co is ux m).1 := rfl
    rw [happ]
    simp only [probeReport]
    by_cases hm0 : m = 0
    · rw [if_pos hm0]
      exact Or.inl rfl
    · rw [if_neg hm0]
      by_cases hmis : m ≠ csz ∨
          cs ≠ (if i = 0 then 0 else ((st.msData.get? (i - 1)).map (·.end_)).getD 0)
      · rw [if_pos hmis]
        exact Or.inr ⟨rfl, hm0, hmis⟩
      · rw [if_neg hmis]
        exact Or.inl rfl
  | resize w s => exact Or.inl (resizeEvent_hds cfg st w s)
  | toOffset v => exact Or.inl (scrollToOffset_hds st v)
  | toItem v => exact Or.inl (scrollToItem_hds cfg st v)
  | resetUserScroll => exact Or.inl rfl
  | resetIsScrolling => exact Or.inl (handleScroll_hds cfg st st.scrollOffset false false)

lemma applyOps_hds_mono (cfg : Config) (ops : List Op) :
    ∀ st : EngineState, st.hasDynamicSize = true →
      (applyOps cfg ops st).hasDynamicSize = true := by
  induction ops with
  | nil => intro st h; simpa [applyOps] using h
  | cons op ops ih =>
    intro st h
    have hstep : (applyOp cfg op st).hasDynamicSize = true := by
      rcases applyOp_hds cfg op st with h1 | h1
      · rw [h1, h]
      · exact h1.1
    have : applyOps cfg (op :: ops) st = applyOps cfg ops (applyOp cfg op st) := rfl
    rw [this]
    exact ih _ hstep

/-- A sample configuration used by concrete witnesses. -/
def cfgDemo : Config :=
  { itemCount := 4, overscanCount := 1, loadMoreCount := 15,
    itemSize := ItemSize.const 100, stickyIndices := none, hasLoadMore := false,
    isItemLoaded := none }

/-- C8.  The `hasDynamicSize` flag starts `false`; every engine operation
either leaves it unchanged or sets it to `true`, the latter only for a
size-probe report whose measurement disagrees with the stored geometry; and
no sequence of operations ever takes it from `true` back to `false`. -/
theorem hasDynamicSize_sticky :
    initEngineState.hasDynamicSize = false ∧
    (∀ (cfg : Config) (op : Op) (st : EngineState),
      (applyOp cfg op st).hasDynamicSize = st.hasDynamicSize ∨
        ((applyOp cfg op st).hasDynamicSize = true ∧ probeMismatch op st)) ∧
    (∀ (cfg : Config) (ops : List Op) (st : EngineState),
      st.hasDynamicSize = true → (applyOps cfg ops st).hasDynamicSize = true) :=
  ⟨rfl, fun cfg op st => applyOp_hds cfg op st,
    fun cfg ops st h => applyOps_hds_mono cfg ops st h⟩

/-- Witness for C8: once the flag is `true`, a further event sequence (a
user-scroll reset followed by a scroll event) keeps it `true`. -/
theorem hasDynamicSize_sticky_witness :
    ({ initEngineState with hasDynamicSize := true } : EngineState).hasDynamicSize
        = true ∧
    (applyOps cfgDemo [Op.resetUserScroll, Op.scroll 10 false]
        { initEngineState with hasDynamicSize := true }).hasDynamicSize = true :=
  ⟨rfl, hasDynamicSize_sticky.2.2 cfgDemo [Op.resetUserScroll, Op.scroll 10 false]
    { initEngineState with hasDynamicSize := true } rfl⟩

/-! ### Incremental loader trigger (C3) -/

/-- A 100-item fixed-size store for the loader scenarios. -/
def store100 : List Measure :=
  measureItems (getItemSize (ItemSize.const 100) 0) false [] 100

lemma store100_eq : store100 = msConst 100 100 :=
  (measureItems_const_layout 100 0 100 false [] (by simp)).1

/-- Loader scenario configuration: 100 items of fixed size 100,
`loadMoreCount = 15`, a `loadMore` callback and no `isItemLoaded`. -/
def cfgLoad : Config :=
  { itemCount := 100, overscanCount := 1, loadMoreCount := 15,
    itemSize := ItemSize.const 100, stickyIndices := none, hasLoadMore := true,
    isItemLoaded := none }

/-- Loader scenario state: mounted, static sizing, viewport 500, with a
given previously-seen visible stop. -/
def stLoad (prev : Option Int) : EngineState :=
  { msData := store100, hasDynamicSize := false, isMounted := true, prevVStop := prev,
    prevItemIdx := -1, scrollOffset := 0, userScroll := true, items := [],
    containerOffset := 0, inner := none, outerSize := 500, outerWidth := 0 }

/-- C3 (amended).  Once mounted and with items present, a scroll-driven
`handleScroll` emits a load request exactly when the computed `visibleStop`
differs from the previously seen one and the page `floor((vStop+1) /
loadMoreCount)` is not already marked loaded; the request carries
`{startIndex, stopIndex, loadIndex, scrollOffset, userScroll}` and the seen
stop is updated.  In particular, with `loadMoreCount = 15`, `visibleStop`
crossing from 14 to 15 emits exactly one request `{startIndex: 15,
stopIndex: 29, loadIndex: 1}`. -/
theorem loadMore_trigger :
    (∀ (cfg : Config) (st : EngineState) (off : Int) (ux : Bool),
      st.isMounted = true → cfg.itemCount ≠ 0 →
      (handleScroll cfg st off true ux).2 =
        (if cfg.hasLoadMore &&
            !(st.prevVStop == some (getCalcData st.hasDynamicSize cfg.overscanCount
                st.msData st.outerSize off).vStop) &&
            !(isLoadedAt cfg (Int.fdiv ((getCalcData st.hasDynamicSize cfg.overscanCount
                st.msData st.outerSize off).vStop + 1) (cfg.loadMoreCount : Int))) then
          [{ startIndex := Int.fdiv ((getCalcData st.hasDynamicSize cfg.overscanCount
                st.msData st.outerSize off).vStop + 1) (cfg.loadMoreCount : Int)
                * (cfg.loadMoreCount : Int),
             stopIndex := Int.fdiv ((getCalcData st.hasDynamicSize cfg.overscanCount
                st.msData st.outerSize off).vStop + 1) (cfg.loadMoreCount : Int)
                * (cfg.loadMoreCount : Int) + (cfg.loadMoreCount : Int) - 1,
             loadIndex := Int.fdiv ((getCalcData st.hasDynamicSize cfg.overscanCount
                st.msData st.outerSize off).vStop + 1) (cfg.loadMoreCount : Int),
             scrollOffset := off, userScroll := st.userScroll }]
        else []) ∧
      (handleScroll cfg st off true ux).1.prevVStop
        = some (getCalcData st.hasDynamicSize cfg.overscanCount st.msData
            st.outerSize off).vStop) ∧
    (∀ (cfg : Config) (st : EngineState) (off : Int) (ux : Bool),
      st.isMounted = false →
      (handleScroll cfg st off false ux).2 =
        (if cfg.hasLoadMore && !(isLoadedAt cfg 0) then
          [{ startIndex := 0, stopIndex := (cfg.loadMoreCount : Int) - 1, loadIndex := 0,
             scrollOffset := off, userScroll := st.userScroll }]
        else [])) ∧
    (handleScroll cfgLoad (stLoad (some 14)) 1100 true false).2
      = [{ startIndex := 15, stopIndex := 29, loadIndex := 1, scrollOffset := 1100,
           userScroll := true }] := by
  refine ⟨?_, ?_, ?_⟩
  · intro cfg st off ux hmount hcount
    rw [handleScroll.eq_def]
    rw [hmount]
    rw [if_neg hcount]
    simp only [Bool.not_true, Bool.and_false, Bool.false_and, Bool.false_eq_true,
      if_false, List.nil_append]
    exact ⟨trivial, trivial⟩
  · intro cfg st off ux hmount
    rw [handleScroll.eq_def]
    rw [hmount]
    simp only [Bool.not_false, Bool.and_true]
    split
    · rfl
    · rfl
  · show (handleScroll cfgLoad (stLoad (some 14)) 1100 true false).2 = _
    simp only [stLoad, store100_eq]
    decide

/-- Witness for C3: the concrete crossing scenario, obtained from the
general trigger characterisation. -/
theorem loadMore_trigger_witness :
    (stLoad (some 14)).isMounted = true ∧ cfgLoad.itemCount ≠ 0 ∧
    (handleScroll cfgLoad (stLoad (some 14)) 1100 true false).1.prevVStop
      = some (getCalcData (stLoad (some 14)).hasDynamicSize cfgLoad.overscanCount
          (stLoad (some 14)).msData (stLoad (some 14)).outerSize 1100).vStop :=
  ⟨rfl, by decide,
    (loadMore_trigger.1 cfgLoad (stLoad (some 14)) 1100 false rfl (by decide)).2⟩

/-- C3 counterexample: with `loadMoreCount = 15`, moving `visibleStop` from
31 to 32 keeps the page index unchanged (`floor(33/15) = floor(32/15) = 2`),
yet the code emits a further load request — the trigger is a change of
`visibleStop`, not a change of page index. -/
theorem loadMore_same_page_refires :
    (getCalcData false 1 store100 500 2750).vStop = 32 ∧
    Int.fdiv ((32 : Int) + 1) 15 = Int.fdiv ((31 : Int) + 1) 15 ∧
    (stLoad (some 31)).prevVStop = some 31 ∧
    (handleScroll cfgLoad (stLoad (some 31)) 2750 true false).2
      = [{ startIndex := 30, stopIndex := 44, loadIndex := 2, scrollOffset := 2750,
           userScroll := true }] := by
  refine ⟨?_, by decide, rfl, ?_⟩
  · rw [store100_eq]; decide
  · simp only [stLoad, store100_eq]
    decide

/-! ### Binary-search correctness on a sorted sequence (sticky resolver, C4) -/

lemma fnbsAux_sorted (input : Int) (vals : Int → Int) (n : Nat) (hn : 0 < n)
    (mono : ∀ i j : Int, 0 ≤ i → i < j → j ≤ (n : Int) - 1 → vals i < vals j)
    (h0 : vals 0 ≤ input) :
    ∀ (fuel : Nat) (low high : Int), 0 ≤ low → low ≤ high + 1 → high ≤ (n : Int) - 1 →
      (low = 0 ∨ vals (low - 1) ≤ input) →
      (high = (n : Int) - 1 ∨ input < vals (high + 1)) →
      ((high + 1 - low).toNat < fuel) →
      0 ≤ fnbsAux input vals fuel low high ∧
      fnbsAux input vals fuel low high ≤ (n : Int) - 1 ∧
      vals (fnbsAux input vals fuel low high) ≤ input ∧
      (fnbsAux input vals fuel low high = (n : Int) - 1 ∨
        input < vals (fnbsAux input vals fuel low high + 1)) := by
  intro fuel
  induction fuel with
  | zero => intro low high _ hlh1 _ _ _ hfuel; omega
  | succ fuel ih =>
    intro low high hl0 hlh1 hhn hinv4 hinv5 hfuel
    simp only [fnbsAux]
    by_cases hlh : low ≤ high
    · rw [if_pos hlh]
      have hm1 : low ≤ (low + high) / 2 := by omega
      have hm2 : (low + high) / 2 ≤ high := by omega
      have hmid1 : (low + high) / 2 - 1 + 1 = (low + high) / 2 := by omega
      have hmid2 : (low + high) / 2 + 1 - 1 = (low + high) / 2 := by omega
      by_cases hlt : input < vals ((low + high) / 2)
      · rw [if_pos hlt]
        exact ih low ((low + high) / 2 - 1) hl0 (by omega) (by omega) hinv4
          (Or.inr (by rw [hmid1]; exact hlt)) (by omega)
      · rw [if_neg hlt]
        by_cases hgt : vals ((low + high) / 2) < input
        · rw [if_pos hgt]
          exact ih ((low + high) / 2 + 1) high (by omega) (by omega) hhn
            (Or.inr (by rw [hmid2]; exact le_of_lt hgt)) hinv5 (by omega)
        · rw [if_neg hgt]
          have heq : vals ((low + high) / 2) = input :=
            le_antisymm (not_lt.mp hlt) (not_lt.mp hgt)
          refine ⟨by omega, by omega, le_of_eq heq, ?_⟩
          by_cases hmn : (low + high) / 2 = (n : Int) - 1
          · exact Or.inl hmn
          · refine Or.inr ?_
            have hv : vals ((low + high) / 2) < vals ((low + high) / 2 + 1) :=
              mono _ _ (by omega) (by omega) (by omega)
            exact heq ▸ hv
    · rw [if_neg hlh]
      have hle : low = high + 1 := by omega
      by_cases hl : 0 < low
      · rw [if_pos hl]
        have h4 : vals (low - 1) ≤ input := by
          rcases hinv4 with h | h
          · omega
          · exact h
        refine ⟨by omega, by omega, h4, ?_⟩
        rcases hinv5 with h | h
        · exact Or.inl (by omega)
        · refine Or.inr ?_
          have : low - 1 + 1 = high + 1 := by omega
          rw [this]
          exact h
      · rw [if_neg hl]
        have hlow : low = 0 := by omega
        rcases hinv5 with h | h
        · exact ⟨le_rfl, by omega, h0, Or.inl (by omega)⟩
        · exfalso
          have : high + 1 = 0 := by omega
          rw [this] at h
          exact absurd h0 (not_le.mpr h)

lemma fnbs_sorted (input : Int) (vals : Int → Int) (n : Nat) (hn : 0 < n)
    (mono : ∀ i j : Int, 0 ≤ i → i < j → j ≤ (n : Int) - 1 → vals i < vals j)
    (h0 : vals 0 ≤ input) :
    0 ≤ findNearestBinarySearch 0 ((n : Int) - 1) input vals ∧
    findNearestBinarySearch 0 ((n : Int) - 1) input vals ≤ (n : Int) - 1 ∧
    vals (findNearestBinarySearch 0 ((n : Int) - 1) input vals) ≤ input ∧
    (∀ k : Int, 0 ≤ k → k ≤ (n : Int) - 1 → vals k ≤ input →
      k ≤ findNearestBinarySearch 0 ((n : Int) - 1) input vals) := by
  have h := fnbsAux_sorted input vals n hn mono h0 (((n : Int) - 1) + 2 - 0).toNat 0
    ((n : Int) - 1) le_rfl (by omega) le_rfl (Or.inl rfl) (Or.inl rfl) (by omega)
  unfold findNearestBinarySearch
  obtain ⟨h1, h2, h3, h4⟩ := h
  refine ⟨h1, h2, h3, ?_⟩
  intro k hk0 hk1 hkv
  set r := fnbsAux input vals (((n : Int) - 1) + 2 - 0).toNat 0 ((n : Int) - 1) with hr
  by_contra hc
  have hrk : r < k := by omega
  rcases h4 with h | h
  · omega
  · rcases eq_or_lt_of_le (show r + 1 ≤ k by omega) with he | hlt2
    · rw [← he] at hkv
      exact absurd hkv (not_le.mpr h)
    · have hm := mono (r + 1) k (by omega) hlt2 hk1
      exact absurd hkv (not_le.mpr (lt_trans h hm))

lemma stickyVals_mono (stickies : List Nat) (hsort : List.Pairwise (· < ·) stickies) :
    ∀ i j : Int, 0 ≤ i → i < j → j ≤ (stickies.length : Int) - 1 →
      stickyVals stickies i < stickyVals stickies j := by
  intro i j hi hij hj
  have hjN : j.toNat < stickies.length := by omega
  have hiN : i.toNat < stickies.length := by omega
  have hijN : i.toNat < j.toNat := by omega
  unfold stickyVals
  rw [List.get?_eq_get hiN, List.get?_eq_get hjN]
  simp only [Option.getD_some]
  have := List.pairwise_iff_get.mp hsort ⟨i.toNat, hiN⟩ ⟨j.toNat, hjN⟩ hijN
  exact_mod_cast this

/-- The sticky resolver's binary search on an ascending sticky list picks
exactly the greatest sticky index at or below the visible start. -/
lemma sticky_select (stickies : List Nat) (hsort : List.Pairwise (· < ·) stickies)
    (s v : Nat) (hmem : s ∈ stickies) (hle : s ≤ v)
    (hgreatest : ∀ t ∈ stickies, t ≤ v → t ≤ s) :
    (stickies.get? (findNearestBinarySearch 0 ((stickies.length : Int) - 1) (v : Int)
        (stickyVals stickies)).toNat).getD 0 = s := by
  obtain ⟨⟨k, hkl⟩, hks⟩ := List.mem_iff_get.mp hmem
  have hn : 0 < stickies.length := List.length_pos_of_mem hmem
  have h0 : stickyVals stickies 0 ≤ (v : Int) := by
    unfold stickyVals
    have h0N : (0 : Int).toNat < stickies.length := by omega
    rw [List.get?_eq_get h0N, Option.getD_some]
    have hfirst : stickies.get ⟨(0 : Int).toNat, h0N⟩ ≤ s := by
      rcases Nat.eq_zero_or_pos k with hk0 | hkpos
      · rw [← hks]
        exact le_of_eq (congrArg _ (by simp [Fin.ext_iff, hk0]))
      · have := List.pairwise_iff_get.mp hsort ⟨(0 : Int).toNat, h0N⟩ ⟨k, hkl⟩
          (by simpa using hkpos)
        rw [← hks]
        exact le_of_lt this
    exact_mod_cast le_trans hfirst hle
  obtain ⟨hr0, hr1, hrv, hrmax⟩ := fnbs_sorted (v : Int) (stickyVals stickies)
    stickies.length hn (stickyVals_mono stickies hsort) h0
  set r := findNearestBinarySearch 0 ((stickies.length : Int) - 1) (v : Int)
    (stickyVals stickies) with hrdef
  have hrN : r.toNat < stickies.length := by omega
  rw [List.get?_eq_get hrN, Option.getD_some]
  set e := stickies.get ⟨r.toNat, hrN⟩ with hedef
  have hev : (e : Int) ≤ (v : Int) := by
    have h := hrv
    unfold stickyVals at h
    rw [List.get?_eq_get hrN, Option.getD_some] at h
    exact h
  have hes : e ≤ s := hgreatest e (List.get_mem _ _ _) (by exact_mod_cast hev)
  have hse : s ≤ e := by
    have hkv : stickyVals stickies (k : Int) ≤ (v : Int) := by
      unfold stickyVals
      have hkN : ((k : Int)).toNat = k := by omega
      rw [hkN, List.get?_eq_get hkl, Option.getD_some, hks]
      exact_mod_cast hle
    have hk_le : (k : Int) ≤ r := hrmax (k : Int) (by omega) (by omega) hkv
    have hkr : k ≤ r.toNat := by omega
    rcases Nat.eq_or_lt_of_le hkr with he | hlt
    · rw [← hks, hedef]
      exact le_of_eq (congrArg _ (by simp [Fin.ext_iff, he]))
    · have := List.pairwise_iff_get.mp hsort ⟨k, hkl⟩ ⟨r.toNat, hrN⟩ hlt
      rw [← hks]
      exact le_of_lt this
  exact (Nat.le_antisymm hse hes).symm

/-- C4 (amended).  For every ascending sticky list, whenever some sticky
index lies at or before `visibleStart` and the greatest such index `s` lies
strictly before the overscan window's start, the rendered item list is
prepended with exactly that sticky item, pinned at `start = 0` with
`isSticky = true`; the published leading margin is reduced by the item's
size and the published inner size inflated by it. -/
theorem sticky_prepend (cfg : Config) (st : EngineState) (off : Int)
    (isScrolling ux : Bool) (stickies : List Nat) (s : Nat)
    (hsi : cfg.stickyIndices = some stickies)
    (hsort : List.Pairwise (· < ·) stickies)
    (hmem : s ∈ stickies)
    (hle : s ≤ (getCalcData st.hasDynamicSize cfg.overscanCount st.msData st.outerSize
        off).vStart)
    (hgreatest : ∀ t ∈ stickies,
      t ≤ (getCalcData st.hasDynamicSize cfg.overscanCount st.msData st.outerSize
          off).vStart → t ≤ s)
    (hbefore : s < (getCalcData st.hasDynamicSize cfg.overscanCount st.msData
        st.outerSize off).oStart)
    (hcount : cfg.itemCount ≠ 0) :
    (handleScroll cfg st off isScrolling ux).1.items
      = ({ index := s, start := 0,
           size := ((st.msData.get? s).map (·.size)).getD 0,
           width := st.outerWidth, isScrolling := ux, isSticky := true } : Item)
        :: renderItems st.msData st.outerWidth ux stickies
            (getCalcData st.hasDynamicSize cfg.overscanCount st.msData st.outerSize
              off).oStart
            (getCalcData st.hasDynamicSize cfg.overscanCount st.msData st.outerSize
              off).oStop
            (getCalcData st.hasDynamicSize cfg.overscanCount st.msData st.outerSize
              off).margin ∧
    (handleScroll cfg st off isScrolling ux).1.inner
      = some ((getCalcData st.hasDynamicSize cfg.overscanCount st.msData st.outerSize
            off).margin - ((st.msData.get? s).map (·.size)).getD 0,
          (getCalcData st.hasDynamicSize cfg.overscanCount st.msData st.outerSize
            off).innerSize + ((st.msData.get? s).map (·.size)).getD 0) := by
  have hsel := sticky_select stickies hsort s
    (getCalcData st.hasDynamicSize cfg.overscanCount st.msData st.outerSize off).vStart
    hmem hle hgreatest
  have hne : stickies.isEmpty = false := by
    cases stickies with
    | nil => cases hmem
    | cons a l => rfl
  rw [handleScroll.eq_def]
  rw [if_neg hcount]
  simp only [hsi, Option.getD_some]
  rw [applySticky.eq_def]
  rw [hne]
  simp only [Bool.false_eq_true, if_false]
  rw [hsel]
  have hcast : (s : Int) < ((getCalcData st.hasDynamicSize cfg.overscanCount st.msData
      st.outerSize off).oStart : Int) := by exact_mod_cast hbefore
  rw [if_pos hcast]
  split
  · exact ⟨rfl, rfl⟩
  · exact ⟨rfl, rfl⟩

/-- Sticky scenario configuration: 1000 fixed-size items with
`stickyIndices = [0, 50, 100]`. -/
def cfgSticky : Config :=
  { itemCount := 1000, overscanCount := 1, loadMoreCount := 15,
    itemSize := ItemSize.const 100, stickyIndices := some [0, 50, 100],
    hasLoadMore := false, isItemLoaded := none }

/-- Sticky scenario state: mounted, static sizing, viewport 500. -/
def stSticky : EngineState :=
  { msData := store1000, hasDynamicSize := false, isMounted := true, prevVStop := none,
    prevItemIdx := -1, scrollOffset := 0, userScroll := true, items := [],
    containerOffset := 0, inner := none, outerSize := 500, outerWidth := 0 }

set_option maxRecDepth 100000 in
/-- Witness for C4: at offset 6100 the overscan window starts at 60, the
greatest sticky index at or below `visibleStart = 61` is 50, and the
rendered list is prepended with item 50 pinned at `start = 0`. -/
theorem sticky_prepend_witness :
    (handleScroll cfgSticky stSticky 6100 false false).1.items
      = ({ index := 50, start := 0,
           size := ((stSticky.msData.get? 50).map (·.size)).getD 0,
           width := stSticky.outerWidth, isScrolling := false, isSticky := true } : Item)
        :: renderItems stSticky.msData stSticky.outerWidth false [0, 50, 100]
            (getCalcData stSticky.hasDynamicSize cfgSticky.overscanCount stSticky.msData
              stSticky.outerSize 6100).oStart
            (getCalcData stSticky.hasDynamicSize cfgSticky.overscanCount stSticky.msData
              stSticky.outerSize 6100).oStop
            (getCalcData stSticky.hasDynamicSize cfgSticky.overscanCount stSticky.msData
              stSticky.outerSize 6100).margin ∧
    (handleScroll cfgSticky stSticky 6100 false false).1.inner
      = some ((getCalcData stSticky.hasDynamicSize cfgSticky.overscanCount stSticky.msData
            stSticky.outerSize 6100).margin
            - ((stSticky.msData.get? 50).map (·.size)).getD 0,
          (getCalcData stSticky.hasDynamicSize cfgSticky.overscanCount stSticky.msData
            stSticky.outerSize 6100).innerSize
            + ((stSticky.msData.get? 50).map (·.size)).getD 0) :=
  sticky_prepend cfgSticky stSticky 6100 false false [0, 50, 100] 50 rfl
    (by decide) (by decide)
    (by show 50 ≤ (getCalcData false 1 stSticky.msData 500 6100).vStart
        show 50 ≤ (getCalcData false 1 store1000 500 6100).vStart
        rw [store1000_eq]; decide)
    (by show ∀ t ∈ [0, 50, 100],
          t ≤ (getCalcData false 1 store1000 500 6100).vStart → t ≤ 50
        rw [store1000_eq]; decide)
    (by show 50 < (getCalcData false 1 store1000 500 6100).oStart
        rw [store1000_eq]; decide)
    (by decide)

set_option maxRecDepth 100000 in
/-- C4 counterexample: in the same scenario the published leading margin is
`margin - size = 5900`, not the claimed `margin + size = 6100` — the margin
is deflated, not inflated, by the pinned item's size. -/
theorem sticky_margin_not_inflated :
    (getCalcData false 1 store1000 500 6100).margin = 6000 ∧
    ((store1000.get? 50).map (·.size)).getD 0 = 100 ∧
    (handleScroll cfgSticky stSticky 6100 false false).1.inner = some (5900, 94100) ∧
    ¬ ((handleScroll cfgSticky stSticky 6100 false false).1.inner
        = some (6000 + 100, 94100)) := by
  refine ⟨?_, ?_, ?_, ?_⟩
  · rw [store1000_eq]; decide
  · rw [store1000_eq]; decide
  · simp only [stSticky, store1000_eq]
    decide
  · simp only [stSticky, store1000_eq]
    decide

end RCV
